import Mathlib

/-!
Verification development for the nfservice_http2 repository (src/nf1.go,
src/nf2.go): a shallow embedding of the wire message, the JSON codec used on
it, the request-correlation gate, the two HTTP handlers, the outbound request
builders, the server-group shutdown protocol and the configuration checks,
together with theorems settling the specification claims.
-/

/-- Wire message exchanged between the nodes (src/nf1.go:44-47 and
src/nf2.go:35-38): a struct with two string fields, serialized by
encoding/json with tags "location" and "time". -/
structure NF where
  location : String
  time : String
deriving Repr, DecidableEq

namespace Wire

/-- Lowercase hexadecimal digit, as emitted by encoding/json's string escaper
for the `\u00XX` escapes (Go writes lowercase hex digits). -/
def hexDigit (n : Nat) : Char :=
  if n < 10 then Char.ofNat (48 + n) else Char.ofNat (87 + n)

/-- Four lowercase hex digits of a code point below 0x10000, most significant
first, as in Go's `\uXXXX` escapes. -/
def toHex4 (n : Nat) : List Char :=
  [hexDigit (n / 4096 % 16), hexDigit (n / 256 % 16), hexDigit (n / 16 % 16), hexDigit (n % 16)]

/-- Escaping of one character by encoding/json's Marshal with the default
HTML-escaping encoder (encodeState.string over htmlSafeSet): quote, backslash,
newline, carriage return and tab get two-character escapes; other control
characters and the HTML-sensitive characters `<` `>` `&` and the line
separators U+2028/U+2029 get `\uXXXX` escapes; everything else is copied
literally. (Invalid UTF-8, which Go coerces to U+FFFD, cannot occur here:
a Lean `Char` is a valid scalar value.) -/
def jsonEscapeChar (c : Char) : List Char :=
  if c = '"' then ['\\', '"']
  else if c = '\\' then ['\\', '\\']
  else if c = '\n' then ['\\', 'n']
  else if c.toNat = 13 then ['\\', 'r']
  else if c = '\t' then ['\\', 't']
  else if c.toNat < 32 ∨ c = '<' ∨ c = '>' ∨ c = '&' ∨ c.toNat = 8232 ∨ c.toNat = 8233 then
    '\\' :: 'u' :: toHex4 c.toNat
  else [c]

/-- Escaped body of a JSON string literal: each character escaped as
encoding/json does, concatenated. -/
def quoteBody (s : List Char) : List Char :=
  (s.map jsonEscapeChar).flatten

/-- A complete JSON string literal for `s`, as encoding/json emits it. -/
def jsonQuote (s : String) : List Char :=
  '"' :: quoteBody s.data ++ ['"']

/-- json.Marshal of an NF value (fields in declaration order, keys from the
struct tags, no added whitespace): the exact byte sequence Go produces. -/
def encodeNF (m : NF) : List Char :=
  '\x7b' :: (jsonQuote ("location") ++ ':' :: jsonQuote m.location
    ++ ',' :: jsonQuote ("time") ++ ':' :: jsonQuote m.time ++ ['\x7d'])

/-- json.Marshal of an NF value as a string. -/
def encodeNFString (m : NF) : String :=
  String.mk (encodeNF m)

/-- Numeric value of one hex digit, upper or lower case accepted, as Go's
getu4 does. -/
def fromHexDigit (c : Char) : Option Nat :=
  if 48 ≤ c.toNat ∧ c.toNat ≤ 57 then some (c.toNat - 48)
  else if 97 ≤ c.toNat ∧ c.toNat ≤ 102 then some (c.toNat - 87)
  else if 65 ≤ c.toNat ∧ c.toNat ≤ 70 then some (c.toNat - 55)
  else none

/-- Value of a four-hex-digit escape, as Go's getu4 computes it. -/
def hex4 (a b c d : Char) : Option Nat :=
  match fromHexDigit a, fromHexDigit b, fromHexDigit c, fromHexDigit d with
  | some x, some y, some z, some w => some (4096 * x + 256 * y + 16 * z + w)
  | _, _, _, _ => none

/-- The two-character escapes Go's string unquoter accepts. -/
def simpleEscape (e : Char) : Option Char :=
  if e = '"' then some '"'
  else if e = '\\' then some '\\'
  else if e = '/' then some '/'
  else if e = 'b' then some (Char.ofNat 8)
  else if e = 'f' then some (Char.ofNat 12)
  else if e = 'n' then some '\n'
  else if e = 'r' then some (Char.ofNat 13)
  else if e = 't' then some '\t'
  else none

/-- Prepend a character to the parsed prefix of a string-body parse result. -/
def mapCons (x : Char) : Option (List Char × List Char) → Option (List Char × List Char)
  | none => none
  | some (l, r) => some (x :: l, r)

/-- Decoding of one `\uXXXX` escape, the input starting at the first hex
digit, following Go's unquoteBytes: four hex digits give a code point; a
high surrogate looks ahead for an escaped low surrogate and combines the
pair; an uncombinable or unpaired surrogate decodes to U+FFFD; fewer than
four hex digits is a syntax error. Returns the decoded character and the
unconsumed remainder. -/
def uStep : List Char → Option (Char × List Char)
  | a :: b :: c :: d :: rest =>
    match hex4 a b c d with
    | none => none
    | some n =>
      if n < 55296 ∨ 57343 < n then some (Char.ofNat n, rest)
      else if 56320 ≤ n then some (Char.ofNat 65533, rest)
      else
        match rest with
        | c3 :: c4 :: a2 :: b2 :: c5 :: d2 :: rest2 =>
          if c3 = '\\' ∧ c4 = 'u' then
            match hex4 a2 b2 c5 d2 with
            | some n2 =>
              if 56320 ≤ n2 ∧ n2 ≤ 57343 then
                some (Char.ofNat (65536 + (n - 55296) * 1024 + (n2 - 56320)), rest2)
              else some (Char.ofNat 65533, rest)
            | none => some (Char.ofNat 65533, rest)
          else some (Char.ofNat 65533, rest)
        | _ => some (Char.ofNat 65533, rest)
  | _ => none

theorem uStep_length (l : List Char) (c : Char) (r : List Char)
    (h : uStep l = some (c, r)) : r.length ≤ l.length := by
  match l with
  | [] => simp [uStep] at h
  | [a] => simp [uStep] at h
  | [a, b] => simp [uStep] at h
  | [a, b, c2] => simp [uStep] at h
  | a :: b :: c2 :: d :: rest =>
    rw [uStep] at h
    repeat' split at h
    all_goals simp at h
    all_goals obtain ⟨-, hr⟩ := h
    all_goals subst hr
    all_goals simp only [List.length_cons]
    all_goals omega

/-- Parser for the body of a JSON string literal (the opening quote already
consumed), following encoding/json's scanner and unquoter: a closing quote
ends the literal; a backslash introduces either a `\uXXXX` escape (handled
by uStep) or a two-character escape; an unescaped control character below
0x20 is a syntax error; any other character is literal. -/
def parseStringBody : List Char → Option (List Char × List Char)
  | [] => none
  | c :: rest =>
    if c = '"' then some ([], rest)
    else if c = '\\' then
      match rest with
      | [] => none
      | e :: rest2 =>
        if e = 'u' then
          match hu : uStep rest2 with
          | some (ch, rest3) => mapCons ch (parseStringBody rest3)
          | none => none
        else
          match simpleEscape e with
          | some ec => mapCons ec (parseStringBody rest2)
          | none => none
    else if c.toNat < 32 then none
    else mapCons c (parseStringBody rest)
termination_by l => l.length
decreasing_by
  all_goals simp only [List.length_cons]
  · have := uStep_length _ _ _ hu
    omega
  · omega
  · omega

/-- Whitespace skipping as in Go's JSON scanner (space, tab, newline,
carriage return). -/
def skipWs : List Char → List Char
  | [] => []
  | c :: rest =>
    if c = ' ' ∨ c = '\t' ∨ c = '\n' ∨ c.toNat = 13 then skipWs rest else c :: rest

/-- Assignment of a decoded string to the NF field whose json tag matches the
key; unknown keys are ignored, as encoding/json does. (Go's case-insensitive
fallback match is not modelled; the keys Marshal emits match exactly.) -/
def setField (m : NF) (key : List Char) (v : List Char) : NF :=
  if key = ("location").data then { m with location := String.mk v }
  else if key = ("time").data then { m with time := String.mk v }
  else m

/-- Parser for a nonempty member list of a JSON object whose values are
string literals, updating an NF accumulator per member and ending at the
closing brace, as encoding/json decodes `\x7b"k":"v",...\x7d` into an NF
struct. (Restricted to string values: Go would additionally skip non-string
values for unknown keys and accept null; no claim exercises such inputs.)
Fuel only bounds the number of members. -/
def parseMember : Nat → List Char → NF → Option (NF × List Char)
  | 0, _, _ => none
  | fuel + 1, input, m =>
    match skipWs input with
    | [] => none
    | c :: rest =>
      if c = '"' then
        match parseStringBody rest with
        | none => none
        | some (key, rest2) =>
          match skipWs rest2 with
          | [] => none
          | c2 :: rest3 =>
            if c2 = ':' then
              match skipWs rest3 with
              | [] => none
              | c3 :: rest4 =>
                if c3 = '"' then
                  match parseStringBody rest4 with
                  | none => none
                  | some (v, rest5) =>
                    match skipWs rest5 with
                    | [] => none
                    | c4 :: rest6 =>
                      if c4 = ',' then parseMember fuel rest6 (setField m key v)
                      else if c4 = '\x7d' then some (setField m key v, rest6)
                      else none
                else none
            else none
      else none

/-- json Decoder.Decode of one NF value into an existing NF variable `init`
(as `json.NewDecoder(r.Body).Decode(&nfBody)` does in src/nf1.go:327 and
src/nf2.go:195): fields absent from the object keep their previous value;
trailing data after the first value is not an error for a stream decoder;
anything that is not an object with string members is rejected. -/
def decodeNFFrom (init : NF) (s : String) : Option NF :=
  match skipWs s.data with
  | [] => none
  | c :: rest =>
    if c = '\x7b' then
      match skipWs rest with
      | [] => none
      | c2 :: _ =>
        if c2 = '\x7d' then some init
        else
          match parseMember (rest.length + 1) rest init with
          | some (m, _) => some m
          | none => none
    else none

/-- Decoding into a zero-valued NF (fresh variable, as NF2's `nf1Body` in
src/nf2.go:177). -/
def decodeNF (s : String) : Option NF :=
  decodeNFFrom { location := "", time := "" } s

theorem fromHexDigit_hexDigit (n : Nat) (h : n < 16) :
    fromHexDigit (hexDigit n) = some n := by
  interval_cases n <;> decide

theorem hex4_toHex4 (n : Nat) (h : n < 65536) :
    hex4 (hexDigit (n / 4096 % 16)) (hexDigit (n / 256 % 16))
      (hexDigit (n / 16 % 16)) (hexDigit (n % 16)) = some n := by
  rw [hex4, fromHexDigit_hexDigit _ (Nat.mod_lt _ (by omega)),
    fromHexDigit_hexDigit _ (Nat.mod_lt _ (by omega)),
    fromHexDigit_hexDigit _ (Nat.mod_lt _ (by omega)),
    fromHexDigit_hexDigit _ (Nat.mod_lt _ (by omega))]
  have hrec : 4096 * (n / 4096 % 16) + 256 * (n / 256 % 16) + 16 * (n / 16 % 16) + n % 16 = n := by
    omega
  exact congrArg some hrec

theorem quoteBody_nil : quoteBody [] = [] := rfl

theorem quoteBody_cons (c : Char) (cs : List Char) :
    quoteBody (c :: cs) = jsonEscapeChar c ++ quoteBody cs := by
  simp [quoteBody]

theorem le_length_quoteBody (cs : List Char) : cs.length ≤ (quoteBody cs).length := by
  induction cs with
  | nil => simp [quoteBody]
  | cons c cs ih =>
    rw [quoteBody_cons]
    have h1 : 1 ≤ (jsonEscapeChar c).length := by
      rw [jsonEscapeChar]
      split_ifs <;> simp [toHex4]
    simp only [List.length_append, List.length_cons]
    omega

theorem parseStringBody_quoteBody (cs : List Char) :
    ∀ (tail : List Char),
      parseStringBody (quoteBody cs ++ '"' :: tail) = some (cs, tail) := by
  induction cs with
  | nil =>
    intro tail
    rw [quoteBody_nil, List.nil_append, parseStringBody.eq_def]
    simp
  | cons c cs ih =>
    intro tail
    have ihf := ih tail
    rw [quoteBody_cons, List.append_assoc]
    by_cases h1 : c = '"'
    · subst h1
      rw [show jsonEscapeChar '"' = ['\\', '"'] from rfl]
      rw [List.cons_append, List.cons_append, List.nil_append]
      simp [parseStringBody, simpleEscape, mapCons, ihf]
    by_cases h2 : c = '\\'
    · subst h2
      rw [show jsonEscapeChar '\\' = ['\\', '\\'] from rfl]
      rw [List.cons_append, List.cons_append, List.nil_append]
      simp [parseStringBody, simpleEscape, mapCons, ihf]
    by_cases h3 : c = '\n'
    · subst h3
      rw [show jsonEscapeChar '\n' = ['\\', 'n'] from rfl]
      rw [List.cons_append, List.cons_append, List.nil_append]
      simp [parseStringBody, simpleEscape, mapCons, ihf]
    by_cases h4 : c.toNat = 13
    · have hc : c = Char.ofNat 13 := by
        rw [← Char.ofNat_toNat c, h4]
      subst hc
      rw [show jsonEscapeChar (Char.ofNat 13) = ['\\', 'r'] from rfl]
      rw [List.cons_append, List.cons_append, List.nil_append]
      simp [parseStringBody, simpleEscape, mapCons, ihf]
    by_cases h5 : c = '\t'
    · subst h5
      rw [show jsonEscapeChar '\t' = ['\\', 't'] from rfl]
      rw [List.cons_append, List.cons_append, List.nil_append]
      simp [parseStringBody, simpleEscape, mapCons, ihf]
    by_cases h6 : c.toNat < 32 ∨ c = '<' ∨ c = '>' ∨ c = '&' ∨ c.toNat = 8232 ∨ c.toNat = 8233
    · have hb : c.toNat < 55296 ∧ c.toNat < 65536 := by
        rcases h6 with h | rfl | rfl | rfl | h | h
        · omega
        · decide
        · decide
        · decide
        · omega
        · omega
      have hesc : jsonEscapeChar c = '\\' :: 'u' :: toHex4 c.toNat := by
        rw [jsonEscapeChar, if_neg h1, if_neg h2, if_neg h3, if_neg h4, if_neg h5, if_pos h6]
      have hhex : hex4 (hexDigit (c.toNat / 4096 % 16)) (hexDigit (c.toNat / 256 % 16))
          (hexDigit (c.toNat / 16 % 16)) (hexDigit (c.toNat % 16)) = some c.toNat :=
        hex4_toHex4 c.toNat hb.2
      have hns : c.toNat < 55296 ∨ 57343 < c.toNat := Or.inl hb.1
      have huStep : uStep (hexDigit (c.toNat / 4096 % 16) :: hexDigit (c.toNat / 256 % 16) ::
          hexDigit (c.toNat / 16 % 16) :: hexDigit (c.toNat % 16) ::
          (quoteBody cs ++ '"' :: tail)) = some (Char.ofNat c.toNat, quoteBody cs ++ '"' :: tail) := by
        simp [uStep, hhex, hns]
      rw [hesc]
      simp only [toHex4, List.cons_append, List.nil_append]
      rw [parseStringBody.eq_def]
      simp only [List.cons_append]
      simp [mapCons]
      split
      · rename_i ch rest3 heq
        rw [huStep] at heq
        simp only [Option.some.injEq, Prod.mk.injEq] at heq
        obtain ⟨hch, hrest⟩ := heq
        subst hch
        subst hrest
        simp [ihf, mapCons]
      · rename_i heq
        rw [huStep] at heq
        simp at heq
    · have hesc : jsonEscapeChar c = [c] := by
        rw [jsonEscapeChar, if_neg h1, if_neg h2, if_neg h3, if_neg h4, if_neg h5, if_neg h6]
      have h32 : ¬ c.toNat < 32 := fun hlt => h6 (Or.inl hlt)
      rw [hesc]
      simp only [List.cons_append, List.nil_append]
      rw [parseStringBody.eq_def]
      simp [h1, h2, h32, mapCons, ihf]

theorem mk_data (s : String) : String.mk s.data = s := rfl

theorem data_mk (l : List Char) : (String.mk l).data = l := rfl

theorem skipWs_cons_of_not_ws (c : Char) (l : List Char)
    (h : ¬ (c = ' ' ∨ c = '\t' ∨ c = '\n' ∨ c.toNat = 13)) : skipWs (c :: l) = c :: l := by
  rw [skipWs, if_neg h]

theorem parseMember_comma (f : Nat) (m0 : NF) (key v rest6 : List Char) :
    parseMember (f + 1)
      ('"' :: (quoteBody key ++ '"' :: ':' :: '"' :: (quoteBody v ++ '"' :: ',' :: rest6))) m0
      = parseMember f rest6 (setField m0 key v) := by
  have hkey := parseStringBody_quoteBody key (':' :: '"' :: (quoteBody v ++ '"' :: ',' :: rest6))
  have hval := parseStringBody_quoteBody v (',' :: rest6)
  simp [parseMember, skipWs_cons_of_not_ws, hkey, hval]

theorem parseMember_last (f : Nat) (m0 : NF) (key v tail : List Char) :
    parseMember (f + 1)
      ('"' :: (quoteBody key ++ '"' :: ':' :: '"' :: (quoteBody v ++ '"' :: '\x7d' :: tail))) m0
      = some (setField m0 key v, tail) := by
  have hkey := parseStringBody_quoteBody key (':' :: '"' :: (quoteBody v ++ '"' :: '\x7d' :: tail))
  have hval := parseStringBody_quoteBody v ('\x7d' :: tail)
  simp [parseMember, skipWs_cons_of_not_ws, hkey, hval]

theorem setField_location (m : NF) (v : List Char) :
    setField m ("location").data v = { m with location := String.mk v } := by
  rw [setField, if_pos rfl]

theorem setField_time (m : NF) (v : List Char) :
    setField m ("time").data v = { m with time := String.mk v } := by
  rw [setField, if_neg (by decide), if_pos rfl]

/-- Round trip at the heart of the codec: decoding a marshalled NF into any
existing NF value yields exactly the marshalled value. -/
theorem decodeNFFrom_encodeNF (init m : NF) :
    decodeNFFrom init (encodeNFString m) = some m := by
  obtain ⟨loc, tim⟩ := m
  simp only [decodeNFFrom, encodeNFString, encodeNF, jsonQuote, data_mk]
  simp only [List.cons_append, List.nil_append, List.append_assoc]
  rw [skipWs_cons_of_not_ws _ _ (by decide)]
  simp only [reduceIte]
  rw [skipWs_cons_of_not_ws _ _ (by decide)]
  simp only [reduceIte, List.length_cons]
  rw [parseMember_comma, parseMember_last, setField_location, setField_time]
  simp [mk_data]

/-- Claim C9 helper: encode-then-decode is the identity on NF messages. -/
theorem decodeNF_encodeNF (m : NF) : decodeNF (encodeNFString m) = some m :=
  decodeNFFrom_encodeNF _ m

end Wire

/-- Model of net/http's ResponseWriter as the handlers drive it: the first
Write commits status 200 when WriteHeader has not been called yet, and a
WriteHeader call after the header is committed is ignored (net/http logs
"superfluous response.WriteHeader call" and sends nothing). -/
structure RW where
  committed : Option Nat
  body : String
deriving Repr, DecidableEq

def RW.write (w : RW) (s : String) : RW :=
  match w.committed with
  | none => { committed := some 200, body := w.body ++ s }
  | some c => { committed := some c, body := w.body ++ s }

def RW.writeHeader (w : RW) (code : Nat) : RW :=
  match w.committed with
  | none => { w with committed := some code }
  | some _ => w

/-- The status line actually sent on the wire (200 when nothing was
committed explicitly). -/
def RW.status (w : RW) : Nat := w.committed.getD 200

def RW.empty : RW := { committed := none, body := "" }

/-- An inbound request as a handler sees it: the body reader, which the
handlers guard against being nil (src/nf1.go:321, src/nf2.go:189). -/
structure Request where
  body : Option String
deriving Repr, DecidableEq

/-- Modelled from net/http's documented server guarantee: for server
requests the Request Body is always non-nil, and reads return EOF
immediately when no body is present. A request delivered by the server to a
handler therefore always carries a (possibly empty) body string. -/
def serverRequest (s : String) : Request := { body := some s }

/-- An outbound HTTP request as the trigger handlers build one
(src/nf1.go:270-273, src/nf2.go:239-244): method, target URL, the two
headers that are set, and the marshalled JSON body. -/
structure HTTPRequest where
  method : String
  url : String
  userAgent : String
  contentType : String
  bodyJSON : String
deriving Repr, DecidableEq

namespace Nf1

/-- State of NF1's request-correlation machinery: the buffered boolean
channel nf2Post of capacity 1 (src/nf1.go:53 and 75) together with the
global nfBody variable (src/nf1.go:54); `waiting` counts the goroutines
currently blocked in a receive on the channel. -/
structure Gate where
  token : Bool
  waiting : Nat
  body : NF
deriving Repr, DecidableEq

def emptyGate : Gate := { token := false, waiting := 0, body := { location := "", time := "" } }

/-- A gate whose capacity-1 slot already holds an unconsumed deposit and
with no receiver waiting. -/
def fullGate : Gate := { token := true, waiting := 0, body := { location := "", time := "" } }

inductive DepositResult
  | ok (g : Gate)
  | blocked (g : Gate)
deriving Repr, DecidableEq

def DepositResult.isBlocked : DepositResult → Bool
  | .ok _ => false
  | .blocked _ => true

def DepositResult.gate : DepositResult → Gate
  | .ok g => g
  | .blocked g => g

/-- The deposit step at the end of nf1Handler (src/nf1.go:327-334): Decode
has written the payload into the global nfBody, and `nf2Post <- true` is a
send on a buffered channel of capacity 1: it hands the token to a waiting
receiver if there is one (unblocking exactly that one), otherwise buffers
it if the buffer slot is empty, otherwise blocks the sending goroutine. -/
def deposit (m : NF) (g : Gate) : DepositResult :=
  if 0 < g.waiting then .ok { token := g.token, waiting := g.waiting - 1, body := m }
  else if g.token then .blocked { g with body := m }
  else .ok { token := true, waiting := g.waiting, body := m }

inductive AwaitResult
  | delivered (m : NF) (g : Gate)
  | blockedWait (g : Gate)
deriving Repr, DecidableEq

/-- The receive `<-nf2Post` in apiHandler (src/nf1.go:298): takes the
buffered token if one is present, else the goroutine blocks. The statement
is a bare channel receive: it is not a select over the request context or
the process-wide cancellation. -/
def awaitDelivery (g : Gate) : AwaitResult :=
  if g.token then .delivered g.body { g with token := false }
  else .blockedWait { g with waiting := g.waiting + 1 }

inductive WaitOutcome
  | responded (status : Nat) (respBody : String) (g : Gate)
  | stillBlocked (g : Gate)
deriving Repr, DecidableEq

def WaitOutcome.isServerErrorResponse : WaitOutcome → Bool
  | .responded s _ _ => 500 ≤ s && s ≤ 599
  | .stillBlocked _ => false

/-- The tail of apiHandler after its outbound call has been answered
(src/nf1.go:296-307): `<-nf2Post`, then marshal the global nfBody,
WriteHeader(StatusOK) and write the JSON. The `cancelled` argument records
whether the request's context or the process-wide cancellation fired while
the handler is suspended; both are in scope there, but the bare channel
receive consults neither, so the outcome cannot depend on `cancelled`. -/
def apiHandlerWait (cancelled : Bool) (g : Gate) : WaitOutcome :=
  match awaitDelivery g with
  | .delivered m g2 => .responded 200 (Wire.encodeNFString m) g2
  | .blockedWait g2 => .stillBlocked g2

/-- Resumption of an apiHandler goroutine woken by a deposit
(src/nf1.go:299-303): it marshals the global nfBody and replies 200. -/
def apiHandlerResume (g : Gate) : Nat × String :=
  (200, Wire.encodeNFString g.body)

inductive Nf1Branch
  | emptyBody
  | decodeFail
  | deposited
deriving Repr, DecidableEq

def Nf1Branch.isEmptyBody : Nf1Branch → Bool
  | .emptyBody => true
  | _ => false

structure Nf1HandlerResult where
  w : RW
  branch : Nf1Branch
  g : Gate
  dep : Option DepositResult
deriving Repr, DecidableEq

/-- nf1Handler (src/nf1.go:309-336), with DumpRequest assumed to succeed:
it first writes "Hello Thanks !!!" (line 318, committing status 200), then
checks `r.Body == nil` (lines 321-325, WriteHeader 400 and return), then
decodes into the global nfBody (line 327; on failure WriteHeader 400 and
return, the gate untouched), and on success performs the deposit
`nf2Post <- true` (line 334). -/
def nf1Handler (req : Request) (g : Gate) : Nf1HandlerResult :=
  let w1 := RW.empty.write ("Hello Thanks !!!")
  match req.body with
  | none => { w := w1.writeHeader 400, branch := .emptyBody, g := g, dep := none }
  | some bs =>
    match Wire.decodeNFFrom g.body bs with
    | none => { w := w1.writeHeader 400, branch := .decodeFail, g := g, dep := none }
    | some m =>
      let d := deposit m g
      { w := w1, branch := .deposited, g := d.gate, dep := some d }

structure HTTPConfig where
  ApiEndpoint : String
  NfEndpoint : String
deriving Repr, DecidableEq

/-- NF1's configuration record (src/nf1.go:30-42). -/
structure Config where
  RemoteNfAPIRoot : String
  LocalNfAPIRoot : String
  NfNotificationResURIPath : String
  httpConfig : HTTPConfig
deriving Repr, DecidableEq

/-- The body of the outbound request apiHandler builds (src/nf1.go:238-240):
location is NF1's own callback URL, time is the current timestamp. -/
def nf1OutboundBody (cfg : Config) (scheme now : String) : NF :=
  { location := scheme ++ cfg.LocalNfAPIRoot ++ cfg.httpConfig.NfEndpoint ++ "/nf1", time := now }

/-- The outbound request apiHandler sends (src/nf1.go:243 and 270-273):
POST to scheme ++ RemoteNfAPIRoot with User-Agent NF1 and JSON content
type, body the marshalled NF message. -/
def apiOutboundRequest (cfg : Config) (scheme now : String) : HTTPRequest :=
  { method := "POST"
    url := scheme ++ cfg.RemoteNfAPIRoot
    userAgent := "NF1"
    contentType := "application/json"
    bodyJSON := Wire.encodeNFString (nf1OutboundBody cfg scheme now) }

inductive ConfigOutcome
  | ok
  | error (msg : String)
  | nilDerefPanic
deriving Repr, DecidableEq

/-- The part of a parsed URL the configuration check names. -/
structure URL where
  scheme : String
deriving Repr, DecidableEq

/-- The validation part of NF1's loadJSONConfig (src/nf1.go:109-129), after
a successful file read and unmarshal. `parseResult` abstracts
`url.Parse(ver + cfg.RemoteNfAPIRoot)`: `some u` when Parse succeeds,
`none` when it returns `(nil, err)`. The guard at line 123 is
`err != nil && (u.Scheme != "http" || u.Scheme != "https")`; when Parse
failed, `err != nil` holds and the short-circuit evaluation reaches
`u.Scheme` with `u == nil`, a nil-pointer dereference; when Parse
succeeded, the guard's first conjunct is false, the branch is skipped and
the nil error is returned (so the scheme disjunction, a tautology, is
never even evaluated). -/
def loadJSONConfigCheck (cfg : Config) (ver : String) (parseResult : Option URL) : ConfigOutcome :=
  if cfg.httpConfig.ApiEndpoint = "" then
    .error ("API " ++ ver ++ " Server endpoint  not configured")
  else if cfg.httpConfig.NfEndpoint = "" then
    .error ("NF " ++ ver ++ " Server endpoint  not configured")
  else
    match parseResult with
    | none => .nilDerefPanic
    | some _u => .ok

/-- main (src/nf1.go:69-93, src/nf2.go:58-80): a non-nil error from
loadJSONConfig makes main log and return before RunServer is called; a
panic also never reaches RunServer. Only an ok outcome starts the
servers. -/
def startsServing : ConfigOutcome → Bool
  | .ok => true
  | .error _ => false
  | .nilDerefPanic => false

end Nf1

namespace Nf2

/-- NF2's configuration record (src/nf2.go:29-33). -/
structure Config where
  NFEndpoint : String
  LocalNfAPIRoot : String
deriving Repr, DecidableEq

/-- The outbound follow-up request NF2 builds (src/nf2.go:231-245): POST to
the location carried by the inbound message (captured at line 231 before
the overwrite), User-Agent NF2, JSON content type, body a marshalled NF
whose location is NF2's own callback URL and whose time is the current
timestamp. -/
def nf2OutboundRequest (nf1Body : NF) (cfg : Config) (scheme now : String) : HTTPRequest :=
  { method := "POST"
    url := nf1Body.location
    userAgent := "NF2"
    contentType := "application/json"
    bodyJSON := Wire.encodeNFString
      { location := scheme ++ cfg.LocalNfAPIRoot ++ cfg.NFEndpoint ++ "/nf2", time := now } }

inductive TailOutcome
  | followUpSent (req : HTTPRequest)
  | cancelledError (msg : String) (status : Nat)
deriving Repr, DecidableEq

def TailOutcome.sent : TailOutcome → Bool
  | .followUpSent _ => true
  | .cancelledError _ _ => false

/-- The select at src/nf2.go:204-271 racing the one-second timer against
the inbound request's context: `timerFirst` records which of the two
events fires first. On the timer, the follow-up POST is built and sent; on
cancellation, `http.Error(w, ctx.Err().Error(), 500)` reports the
cancellation and no follow-up is attempted. -/
def selectPhase (nf1Body : NF) (cfg : Config) (scheme now : String) (timerFirst : Bool) :
    TailOutcome :=
  if timerFirst then .followUpSent (nf2OutboundRequest nf1Body cfg scheme now)
  else .cancelledError ("context canceled") 500

inductive Nf2Branch
  | emptyBody
  | decodeFail
  | acknowledged
deriving Repr, DecidableEq

def Nf2Branch.isEmptyBody : Nf2Branch → Bool
  | .emptyBody => true
  | _ => false

structure Nf2HandlerResult where
  w : RW
  branch : Nf2Branch
  tail : Option TailOutcome
deriving Repr, DecidableEq

def Nf2HandlerResult.followUpWasSent (r : Nf2HandlerResult) : Bool :=
  match r.tail with
  | some t => t.sent
  | none => false

/-- handlerWithCtx (src/nf2.go:175-272), with DumpRequest assumed to
succeed: `r.Body == nil` gives WriteHeader 400 (lines 189-193); a decode
failure gives WriteHeader 400 (lines 195-199) — in both cases before
anything was written, so 400 is the wire status; on success the handler
writes the acknowledgement (line 201, committing 200) and enters the
timer/cancellation select; on the cancellation arm, http.Error attempts
status 500 (superfluous after the commit) and writes the error text. -/
def handlerWithCtx (req : Request) (cfg : Config) (scheme now : String) (timerFirst : Bool) :
    Nf2HandlerResult :=
  match req.body with
  | none => { w := RW.empty.writeHeader 400, branch := .emptyBody, tail := none }
  | some bs =>
    match Wire.decodeNF bs with
    | none => { w := RW.empty.writeHeader 400, branch := .decodeFail, tail := none }
    | some m =>
      let w1 := RW.empty.write ("Hello Thanks !!!")
      match selectPhase m cfg scheme now timerFirst with
      | .followUpSent r =>
        { w := w1, branch := .acknowledged, tail := some (.followUpSent r) }
      | .cancelledError msg st =>
        { w := (w1.writeHeader st).write (msg ++ "\n"), branch := .acknowledged,
          tail := some (.cancelledError msg st) }

/-- The validation part of NF2's loadJSONConfig (src/nf2.go:94-100): only
the NF endpoint is checked; NF2's configuration carries no remote URL and
no URL check exists. -/
def loadJSONConfigCheck (cfg : Config) (ver : String) : Nf1.ConfigOutcome :=
  if cfg.NFEndpoint = "" then
    .error ("NF " ++ ver ++ " Server endpoint  not configured")
  else .ok

end Nf2

namespace Supervisor

/-- A sender of a completion token on stopServerCh: either the
context-cancellation watcher goroutine (which first calls Close on each of
the K owned servers and then sends one token — src/nf1.go:178-192 with
K = 2, src/nf2.go:135-144 with K = 1), or one of the K server goroutines
(each sends one token when its listener returns — src/nf1.go:221,
src/nf2.go:172). -/
inductive Sender (K : Nat)
  | canceller
  | server (i : Fin K)
deriving Repr, DecidableEq

inductive Action (K : Nat)
  | close (i : Fin K)
  | sendToken
deriving Repr, DecidableEq

/-- The cancellation watcher's actions once ctx.Done() fires: Close each
owned server once, in order, then send a single token. NF1 instantiates
K = 2 (apiserver then nfserver, src/nf1.go:181-191), NF2 instantiates
K = 1 (nfserver, src/nf2.go:139-143). -/
def cancellerActions (K : Nat) : List (Action K) :=
  ((List.finRange K).map Action.close) ++ [Action.sendToken]

def closeCount {K : Nat} (l : List (Action K)) : Nat :=
  (l.filter fun a => match a with | .close _ => true | .sendToken => false).length

/-- A list of token receives is valid when no sender's single token appears
twice in it. -/
def validRecv {K : Nat} (l : List (Sender K)) : Prop := l.Nodup

/-- RunServer performs K receives on stopServerCh and then returns
(src/nf1.go:198-199, two receives for K = 2; src/nf2.go:149, one receive
for K = 1): it has returned exactly when a valid list of K tokens has been
received. -/
def runReturned {K : Nat} (l : List (Sender K)) : Prop := l.Nodup ∧ l.length = K

/-- The number of server-exit tokens among those received: the completion
tally of server tasks known to have finished when run() returns. -/
def serverTally {K : Nat} (l : List (Sender K)) : Nat :=
  (l.filter fun s => match s with | .server _ => true | .canceller => false).length

def cancellerTally {K : Nat} (l : List (Sender K)) : Nat :=
  (l.filter fun s => match s with | .server _ => false | .canceller => true).length

/-- Server count of NF1's supervisor (apiserver and nfserver,
src/nf1.go:145-159). -/
def nf1ServerCount : Nat := 2

/-- Server count of NF2's supervisor (nfserver, src/nf2.go:114-121). -/
def nf2ServerCount : Nat := 1

theorem serverTally_cons_server {K : Nat} (i : Fin K) (l : List (Sender K)) :
    serverTally (Sender.server i :: l) = serverTally l + 1 := by
  simp [serverTally, List.filter_cons]

theorem serverTally_cons_canceller {K : Nat} (l : List (Sender K)) :
    serverTally (Sender.canceller :: l) = serverTally l := by
  simp [serverTally, List.filter_cons]

theorem cancellerTally_cons_server {K : Nat} (i : Fin K) (l : List (Sender K)) :
    cancellerTally (Sender.server i :: l) = cancellerTally l := by
  simp [cancellerTally, List.filter_cons]

theorem cancellerTally_cons_canceller {K : Nat} (l : List (Sender K)) :
    cancellerTally (Sender.canceller :: l) = cancellerTally l + 1 := by
  simp [cancellerTally, List.filter_cons]

theorem serverTally_add_cancellerTally {K : Nat} (l : List (Sender K)) :
    serverTally l + cancellerTally l = l.length := by
  induction l with
  | nil => rfl
  | cons s l ih =>
    cases s with
    | canceller =>
      rw [serverTally_cons_canceller, cancellerTally_cons_canceller, List.length_cons]
      omega
    | server i =>
      rw [serverTally_cons_server, cancellerTally_cons_server, List.length_cons]
      omega

theorem cancellerTally_eq_zero {K : Nat} (l : List (Sender K))
    (h : Sender.canceller ∉ l) : cancellerTally l = 0 := by
  induction l with
  | nil => rfl
  | cons s l ih =>
    have hs : Sender.canceller ≠ s ∧ Sender.canceller ∉ l := by
      simpa [List.mem_cons, not_or] using h
    cases s with
    | canceller => exact absurd rfl hs.1
    | server i => rw [cancellerTally_cons_server]; exact ih hs.2

theorem cancellerTally_le_one {K : Nat} (l : List (Sender K)) (h : l.Nodup) :
    cancellerTally l ≤ 1 := by
  induction l with
  | nil => simp [cancellerTally]
  | cons s l ih =>
    rcases List.nodup_cons.mp h with ⟨hs, hl⟩
    cases s with
    | canceller =>
      have h0 := cancellerTally_eq_zero l hs
      rw [cancellerTally_cons_canceller, h0]
    | server i =>
      rw [cancellerTally_cons_server]
      exact ih hl

theorem closeCount_cancellerActions (K : Nat) : closeCount (cancellerActions K) = K := by
  have h : ∀ (l : List (Fin K)), closeCount (l.map Action.close) = l.length := by
    intro l
    induction l with
    | nil => rfl
    | cons i l ih => simpa [closeCount, List.filter_cons] using ih
  have h2 : closeCount (cancellerActions K) = closeCount ((List.finRange K).map Action.close) := by
    simp [closeCount, cancellerActions, List.filter_append, List.filter_cons]
  rw [h2, h, List.length_finRange]

end Supervisor

/-- Claim C1 counterexample: with the CancellationSignal (or the request's
own context) fired while apiHandler is suspended on the Request Correlator
with no deposit available, the handler does not unblock and produces no
server-error response: the bare `<-nf2Post` receive leaves it blocked. -/
theorem c1_counterexample :
    Nf1.apiHandlerWait true Nf1.emptyGate
      = Nf1.WaitOutcome.stillBlocked
          { token := false, waiting := 1, body := { location := "", time := "" } } ∧
    (Nf1.apiHandlerWait true Nf1.emptyGate).isServerErrorResponse = false := by
  constructor <;> rfl

/-- Claim C1 (amended): the apiHandler wait step is entirely insensitive to
cancellation — its outcome with cancellation fired equals its outcome
without — it never returns a server-error status, and it unblocks only when
a deposit token is present, in which case it replies 200 with the
correlated payload; with no token it stays blocked regardless of
cancellation. -/
theorem c1_cancellation_ignored (cancelled : Bool) (g : Nf1.Gate) :
    Nf1.apiHandlerWait cancelled g = Nf1.apiHandlerWait false g ∧
    (Nf1.apiHandlerWait cancelled g).isServerErrorResponse = false ∧
    Nf1.apiHandlerWait cancelled g =
      (if g.token then
        Nf1.WaitOutcome.responded 200 (Wire.encodeNFString g.body) { g with token := false }
      else Nf1.WaitOutcome.stillBlocked { g with waiting := g.waiting + 1 }) := by
  by_cases h : g.token <;>
    simp [Nf1.apiHandlerWait, Nf1.awaitDelivery, Nf1.WaitOutcome.isServerErrorResponse, h]

/-- Claim C2 counterexample: for K = 1 (NF2's supervisor), the receive
history consisting of the cancellation watcher's token alone is a valid
history after which run() has returned, yet the completion tally of server
tasks is 0, not K: run() can return while the single server task has not
completed. -/
theorem c2_counterexample :
    Supervisor.runReturned (K := Supervisor.nf2ServerCount) [Supervisor.Sender.canceller] ∧
    Supervisor.serverTally (K := Supervisor.nf2ServerCount) [Supervisor.Sender.canceller] = 0 := by
  exact ⟨⟨by simp, rfl⟩, rfl⟩

/-- Claim C2 (amended): firing the CancellationSignal still causes exactly
K stop invocations (the watcher closes each owned server once), but run()
returns after receiving K of the K + 1 tokens eventually sent (K server
exits plus one from the watcher), so when run() returns the completion
tally of server tasks is only guaranteed to be between K - 1 and K: one
server task may be left un-awaited. -/
theorem c2_amended {K : Nat} (l : List (Supervisor.Sender K))
    (h : Supervisor.runReturned l) :
    Supervisor.closeCount (Supervisor.cancellerActions K) = K ∧
    K - 1 ≤ Supervisor.serverTally l ∧ Supervisor.serverTally l ≤ K := by
  obtain ⟨hnd, hlen⟩ := h
  have h1 := Supervisor.serverTally_add_cancellerTally l
  have h2 := Supervisor.cancellerTally_le_one l hnd
  exact ⟨Supervisor.closeCount_cancellerActions K, by omega, by omega⟩

theorem c2_amended_witness :
    Supervisor.runReturned (K := 2)
      [Supervisor.Sender.server 0, Supervisor.Sender.canceller] ∧
    (Supervisor.closeCount (Supervisor.cancellerActions 2) = 2 ∧
      2 - 1 ≤ Supervisor.serverTally (K := 2)
        [Supervisor.Sender.server 0, Supervisor.Sender.canceller] ∧
      Supervisor.serverTally (K := 2)
        [Supervisor.Sender.server 0, Supervisor.Sender.canceller] ≤ 2) :=
  ⟨⟨by decide, by decide⟩, c2_amended _ ⟨by decide, by decide⟩⟩

/-- Claim C3: a single deposit into the Request Correlator paired with a
concurrent awaitDelivery hands exactly the deposited message to the
waiting handler, whichever of the two operations runs first, with no loss
and no duplication (the token is consumed and the gate is left empty). -/
theorem c3_correlation (m : NF) (g : Nf1.Gate) (ht : g.token = false) (hw : g.waiting = 0) :
    (Nf1.deposit m g = Nf1.DepositResult.ok { token := true, waiting := 0, body := m } ∧
      Nf1.awaitDelivery { token := true, waiting := 0, body := m }
        = Nf1.AwaitResult.delivered m { token := false, waiting := 0, body := m }) ∧
    (Nf1.awaitDelivery g
        = Nf1.AwaitResult.blockedWait { token := false, waiting := 1, body := g.body } ∧
      Nf1.deposit m { token := false, waiting := 1, body := g.body }
        = Nf1.DepositResult.ok { token := false, waiting := 0, body := m } ∧
      Nf1.apiHandlerResume { token := false, waiting := 0, body := m }
        = (200, Wire.encodeNFString m)) := by
  obtain ⟨t, w, b⟩ := g
  simp only at ht hw
  subst ht
  subst hw
  refine ⟨⟨rfl, rfl⟩, rfl, rfl, rfl⟩

theorem c3_correlation_witness :
    Nf1.emptyGate.token = false ∧ Nf1.emptyGate.waiting = 0 ∧
    ((Nf1.deposit { location := "L", time := "T" } Nf1.emptyGate
        = Nf1.DepositResult.ok
            { token := true, waiting := 0, body := { location := "L", time := "T" } } ∧
      Nf1.awaitDelivery { token := true, waiting := 0, body := { location := "L", time := "T" } }
        = Nf1.AwaitResult.delivered { location := "L", time := "T" }
            { token := false, waiting := 0, body := { location := "L", time := "T" } }) ∧
    (Nf1.awaitDelivery Nf1.emptyGate
        = Nf1.AwaitResult.blockedWait { token := false, waiting := 1, body := Nf1.emptyGate.body } ∧
      Nf1.deposit { location := "L", time := "T" }
          { token := false, waiting := 1, body := Nf1.emptyGate.body }
        = Nf1.DepositResult.ok
            { token := false, waiting := 0, body := { location := "L", time := "T" } } ∧
      Nf1.apiHandlerResume
          { token := false, waiting := 0, body := { location := "L", time := "T" } }
        = (200, Wire.encodeNFString { location := "L", time := "T" }))) :=
  ⟨rfl, rfl, c3_correlation { location := "L", time := "T" } Nf1.emptyGate rfl rfl⟩

/-- Claim C5 counterexample: when the gate already holds an unconsumed
deposit (buffered token) and no receiver is waiting, a further deposit does
not succeed without blocking — the send on the capacity-1 channel blocks
the producing handler. -/
theorem c5_counterexample :
    (Nf1.deposit { location := "x", time := "y" } Nf1.fullGate).isBlocked = true := rfl

/-- Claim C5 (amended): a deposit completes without blocking exactly when a
receiver is pending or the capacity-1 slot is empty; when the slot already
holds an unconsumed deposit and no receiver waits, the deposit blocks the
producer (the payload having already been written to nfBody); and a
deposit wakes exactly one pending awaitDelivery when any are pending,
never more. -/
theorem c5_amended (m : NF) (g : Nf1.Gate) :
    ((Nf1.deposit m g).isBlocked = false ↔ (0 < g.waiting ∨ g.token = false)) ∧
    (Nf1.deposit m g).gate.waiting = g.waiting - min g.waiting 1 ∧
    (Nf1.deposit m g).gate.body = m := by
  by_cases hw : 0 < g.waiting
  · simp [Nf1.deposit, hw, Nf1.DepositResult.isBlocked, Nf1.DepositResult.gate]
    omega
  · by_cases ht : g.token <;>
      simp [Nf1.deposit, hw, ht, Nf1.DepositResult.isBlocked, Nf1.DepositResult.gate] <;>
      omega

namespace Nf1

/-- An otherwise complete NF1 configuration whose RemoteNfAPIRoot makes
url.Parse fail: "https" ++ "://a b.com" has a space in the host, which Go's
url.Parse rejects, so Parse returns (nil, err). -/
def badURLConfig : Config :=
  { RemoteNfAPIRoot := "://a b.com", LocalNfAPIRoot := "", NfNotificationResURIPath := "",
    httpConfig := { ApiEndpoint := "addr1", NfEndpoint := "addr2" } }

/-- An otherwise complete NF1 configuration whose RemoteNfAPIRoot is not a
URL at all, yet "https" ++ "not a url" is accepted by Go's url.Parse (a
colon-free string parses as a relative path with empty scheme), so Parse
returns a URL and a nil error. -/
def lenientConfig : Config :=
  { RemoteNfAPIRoot := "not a url", LocalNfAPIRoot := "", NfNotificationResURIPath := "",
    httpConfig := { ApiEndpoint := "addr1", NfEndpoint := "addr2" } }

/-- An NF1 configuration with the required API endpoint missing. -/
def missingEndpointConfig : Config :=
  { RemoteNfAPIRoot := "", LocalNfAPIRoot := "", NfNotificationResURIPath := "",
    httpConfig := { ApiEndpoint := "", NfEndpoint := "addr2" } }

end Nf1

/-- Claim C7 evaluation: on a configuration whose remote URL makes
url.Parse fail, NF1's validation does not return an error — it dereferences
the nil URL in the guard and panics; on a malformed-but-Parse-accepted
remote URL it returns ok and the servers start; the missing-endpoint checks
do return errors (NF1 and NF2), and main then aborts before serving. -/
theorem c7_config_eval :
    Nf1.loadJSONConfigCheck Nf1.badURLConfig "https" none = Nf1.ConfigOutcome.nilDerefPanic ∧
    Nf1.startsServing (Nf1.loadJSONConfigCheck Nf1.badURLConfig "https" none) = false ∧
    Nf1.loadJSONConfigCheck Nf1.lenientConfig "https" (some { scheme := "" })
      = Nf1.ConfigOutcome.ok ∧
    Nf1.loadJSONConfigCheck Nf1.missingEndpointConfig "https" (some { scheme := "https" })
      = Nf1.ConfigOutcome.error ("API https Server endpoint  not configured") ∧
    Nf1.startsServing
      (Nf1.loadJSONConfigCheck Nf1.missingEndpointConfig "https" (some { scheme := "https" }))
      = false ∧
    Nf2.loadJSONConfigCheck { NFEndpoint := "", LocalNfAPIRoot := "" } "https"
      = Nf1.ConfigOutcome.error ("NF https Server endpoint  not configured") := by
  refine ⟨rfl, rfl, rfl, ?_, rfl, ?_⟩ <;> rfl

/-- Claim C4 evaluation at the failing input: a malformed body sent to
NF1's /nf1 receiver takes the decode-failure branch, never reaches the
deposit (the gate is unchanged and no awaitDelivery can be unblocked) — but
the wire status is 200, not 400: the handler wrote its greeting before
validating, so the WriteHeader(400) at src/nf1.go:329 is superfluous. The
same body sent to NF2's /nf2 receiver, which validates before writing,
yields wire status 400 as the claim states. -/
theorem c4_malformed_body_eval :
    (Nf1.nf1Handler (serverRequest ("not json")) Nf1.emptyGate).branch
      = Nf1.Nf1Branch.decodeFail ∧
    (Nf1.nf1Handler (serverRequest ("not json")) Nf1.emptyGate).g = Nf1.emptyGate ∧
    (Nf1.nf1Handler (serverRequest ("not json")) Nf1.emptyGate).dep = none ∧
    (Nf1.nf1Handler (serverRequest ("not json")) Nf1.emptyGate).w.status = 200 ∧
    (Nf2.handlerWithCtx (serverRequest ("not json"))
        { NFEndpoint := "addr2", LocalNfAPIRoot := "p" } "https" "ts" true).branch
      = Nf2.Nf2Branch.decodeFail ∧
    (Nf2.handlerWithCtx (serverRequest ("not json"))
        { NFEndpoint := "addr2", LocalNfAPIRoot := "p" } "https" "ts" true).w.status = 400 := by
  refine ⟨rfl, rfl, rfl, rfl, rfl, rfl⟩

/-- Claim C6: in NF2's handler, once the inbound body has been decoded and
acknowledged, the follow-up POST is sent if and only if the timer fires
before the request's context is cancelled; when cancellation fires first no
follow-up is sent and the handler reports the cancellation error (via
http.Error with ctx.Err()) instead. -/
theorem c6_timer_race (m : NF) (cfg : Nf2.Config) (scheme now : String) (timerFirst : Bool) :
    (Nf2.handlerWithCtx (serverRequest (Wire.encodeNFString m))
        cfg scheme now timerFirst).followUpWasSent = timerFirst ∧
    (Nf2.handlerWithCtx (serverRequest (Wire.encodeNFString m))
        cfg scheme now timerFirst).tail
      = some (if timerFirst then
            Nf2.TailOutcome.followUpSent (Nf2.nf2OutboundRequest m cfg scheme now)
          else Nf2.TailOutcome.cancelledError ("context canceled") 500) := by
  have hdec := Wire.decodeNF_encodeNF m
  cases timerFirst <;>
    simp [Nf2.handlerWithCtx, serverRequest, hdec, Nf2.selectPhase,
      Nf2.Nf2HandlerResult.followUpWasSent, Nf2.TailOutcome.sent]

/-- Claim C8: every outbound request a trigger handler builds uses method
POST, carries User-Agent equal to the sending node's name and Content-Type
application/json, and its body is a LocationMessage whose location is
scheme ++ local-prefix ++ own-endpoint ++ own-callback-path and whose time
is the current timestamp. -/
theorem c8_outbound_requests (cfg1 : Nf1.Config) (cfg2 : Nf2.Config) (inbound : NF)
    (scheme now : String) :
    (Nf1.apiOutboundRequest cfg1 scheme now).method = "POST" ∧
    (Nf1.apiOutboundRequest cfg1 scheme now).userAgent = "NF1" ∧
    (Nf1.apiOutboundRequest cfg1 scheme now).contentType = "application/json" ∧
    Wire.decodeNF (Nf1.apiOutboundRequest cfg1 scheme now).bodyJSON
      = some { location := scheme ++ cfg1.LocalNfAPIRoot ++ cfg1.httpConfig.NfEndpoint ++ "/nf1"
               time := now } ∧
    (Nf2.nf2OutboundRequest inbound cfg2 scheme now).method = "POST" ∧
    (Nf2.nf2OutboundRequest inbound cfg2 scheme now).userAgent = "NF2" ∧
    (Nf2.nf2OutboundRequest inbound cfg2 scheme now).contentType = "application/json" ∧
    Wire.decodeNF (Nf2.nf2OutboundRequest inbound cfg2 scheme now).bodyJSON
      = some { location := scheme ++ cfg2.LocalNfAPIRoot ++ cfg2.NFEndpoint ++ "/nf2"
               time := now } := by
  refine ⟨rfl, rfl, rfl, ?_, rfl, rfl, rfl, ?_⟩
  · exact Wire.decodeNF_encodeNF _
  · exact Wire.decodeNF_encodeNF _

/-- Claim C9: JSON-encoding a LocationMessage and decoding the result gives
back a message whose location and time are identical to the original:
encode-then-decode is the identity. -/
theorem c9_roundtrip (m : NF) : Wire.decodeNF (Wire.encodeNFString m) = some m :=
  Wire.decodeNF_encodeNF m

/-- Claim C10: requests delivered by the net/http server always carry a
non-nil body, so the dedicated empty-body branches of both receiver
handlers are unreachable; an empty body instead takes the decode-failure
branch through an end-of-input decode error. -/
theorem c10_empty_body_branch_unreachable (s : String) (g : Nf1.Gate) (cfg : Nf2.Config)
    (scheme now : String) (tf : Bool) :
    (Nf1.nf1Handler (serverRequest s) g).branch.isEmptyBody = false ∧
    (Nf2.handlerWithCtx (serverRequest s) cfg scheme now tf).branch.isEmptyBody = false ∧
    (Nf1.nf1Handler (serverRequest "") g).branch = Nf1.Nf1Branch.decodeFail ∧
    (Nf2.handlerWithCtx (serverRequest "") cfg scheme now tf).branch
      = Nf2.Nf2Branch.decodeFail := by
  refine ⟨?_, ?_, ?_, ?_⟩
  · cases hd : Wire.decodeNFFrom g.body s <;>
      simp [Nf1.nf1Handler, serverRequest, hd, Nf1.Nf1Branch.isEmptyBody]
  · cases hd : Wire.decodeNF s
    · simp [Nf2.handlerWithCtx, serverRequest, hd, Nf2.Nf2Branch.isEmptyBody]
    · cases tf <;>
        simp [Nf2.handlerWithCtx, serverRequest, hd, Nf2.selectPhase, Nf2.Nf2Branch.isEmptyBody]
  · have hd : Wire.decodeNFFrom g.body "" = none := rfl
    simp [Nf1.nf1Handler, serverRequest, hd]
  · have hd : Wire.decodeNF "" = none := rfl
    simp [Nf2.handlerWithCtx, serverRequest, hd]
